import Mathlib

/-!
A verification development for the lc3rs virtual-machine core (src/vm.rs).

Machine words are natural numbers, with reductions modulo 2 ^ 16 made
explicit exactly where the Rust code performs 16-bit arithmetic or casts.
Fallible VM methods (which in Rust mutate through a mutable borrow and
return a Result) are modelled in a state-passing monad `M` that returns
the state alongside the outcome on the error path as well, so that effects
applied before a failure stay visible.

The repository files command.rs, condition_flags.rs, error.rs, io.rs,
op.rs, plugin.rs, register.rs, trap.rs and utils.rs are not available;
every definition below that stands in for one of them is modelled from
the specification and carries a doc comment saying so.  Everything else
is translated from src/vm.rs.

Two ghost fields instrument observability without altering behaviour:
`log` records every event actually delivered to the plugin bus, and
`obs` records the values plugins obtain from the read accesses they
perform while handling an event.
-/

/-- Modelled from the spec: the error taxonomy of the missing error.rs
(ProgramTooLarge with its length data, internal invariant violations,
unimplemented opcodes RTI/RES, unknown trap vectors, wrapped failures of
the I/O capability); a numbered variant stands for an arbitrary error a
plugin handler may return. -/
inductive LC3Error where
  | programSize (len maxLen : Nat)
  | internal (msg : String)
  | ioError
  | unimplementedOpcode
  | unknownTrap (vector : Nat)
  | pluginFailure (code : Nat)
deriving DecidableEq

/-- Modelled from the spec and the constructor uses in vm.rs: the Event
sum type of the missing plugin.rs, one variant per observable VM access. -/
inductive Event where
  | memGet (location value : Nat)
  | memSet (location value : Nat)
  | regGet (index value : Nat)
  | regSet (index value : Nat)
  | charPut (ch : Char)
  | charGet (ch : Char)
  | keyDownGet (value : Bool)
  | runningGet (value : Bool)
  | runningSet (value : Bool)
  | command (bytes : Nat)
deriving DecidableEq

/-- Modelled from the spec: the accesses a plugin may perform on the
mutable VM handed to its handle_event.  A plugin is modelled as a pure
decision function from the received event to the list of accessor calls
it makes in response (see `Plugin`). -/
inductive PAction where
  | memRead (pos : Nat)
  | memWrite (pos val : Nat)
  | regRead (index : Nat)
  | regWrite (index val : Nat)
  | getRunning
  | setRunning (val : Bool)
  | putChar (ch : Char)
  | getChar
  | isKeyDown
  | addPlugin (p : Event → List PAction)
  | fail (e : LC3Error)

/-- Modelled from the spec: a registered observer; it receives each event
and reacts with a sequence of VM accesses. -/
abbrev Plugin := Event → List PAction

/-- Modelled from the spec: the abstract character-I/O capability of the
missing io.rs, with queued key-availability responses and pending input
characters in the style of the repository's test I/O handle; output
characters are collected in order, an exhausted input queue is an I/O
failure. -/
structure IOState where
  keydowns : List Bool
  inputs : List Char
  outputs : List Char
deriving DecidableEq

/-- The VM state of vm.rs: memory, registers, the running flag, the I/O
handle and the optionally-detached plugin registry, plus the two ghost
trace fields `log` (events delivered to the plugin bus) and `obs` (values
plugins read back during notification rounds). -/
structure VMState where
  memory : Nat → Nat
  registers : Nat → Nat
  running : Bool
  io : IOState
  plugins : Option (List Plugin)
  log : List Event
  obs : List Nat

def MEMORY_SIZE : Nat := 65536

def PC_START : Nat := 0x3000

def KB_STATUS_POS : Nat := 0xFE00

def KB_DATA_POS : Nat := 0xFE02

/-- Modelled from the spec: register.rs has eight general registers
(indices 0-7), the program counter and the condition-flags register. -/
def NUM_REGISTERS : Nat := 10

/-- Modelled from the spec: index of the program-counter register. -/
def RPC : Nat := 8

/-- Modelled from the spec: index of the condition-flags register. -/
def RCond : Nat := 9

/-- Modelled from the spec: condition-flag constant of the missing
condition_flags.rs (LC-3 encoding, POSITIVE). -/
def FL_POS : Nat := 1

/-- Modelled from the spec: condition-flag constant (ZERO). -/
def FL_ZRO : Nat := 2

/-- Modelled from the spec: condition-flag constant (NEGATIVE). -/
def FL_NEG : Nat := 4

/-- Outcome-with-state of a fallible VM method: the state is returned on
the error path too, mirroring mutation through a mutable borrow. -/
def M (α : Type) : Type := VMState → Except LC3Error α × VMState

def M.ok {α : Type} (a : α) : M α := fun s => (Except.ok a, s)

def M.err {α : Type} (e : LC3Error) : M α := fun s => (Except.error e, s)

def M.bind {α β : Type} (x : M α) (f : α → M β) : M β := fun s =>
  match x s with
  | (Except.ok a, s1) => f a s1
  | (Except.error e, s1) => (Except.error e, s1)

def setMem (s : VMState) (pos val : Nat) : VMState :=
  { s with memory := fun a => if a = pos then val else s.memory a }

def setReg (s : VMState) (index val : Nat) : VMState :=
  { s with registers := fun r => if r = index then val else s.registers r }

def pushLog (s : VMState) (e : Event) : VMState :=
  { s with log := s.log ++ [e] }

def pushObs (s : VMState) (v : Nat) : VMState :=
  { s with obs := s.obs ++ [v] }

/-! ### Accessor bodies, parametrised by the notification function

Each `...O` definition is the body of the corresponding vm.rs method with
the call to notify_plugins abstracted into a parameter, so that the
recursive knot (accessor → notification → plugin accesses → accessor) can
be tied by structural recursion on a nesting bound in `notify_plugins`
below. -/

/-- VM::mem_write: notify with the value about to be written, then store. -/
def mem_writeO (notify : Event → M Unit) (pos val : Nat) : M Unit :=
  M.bind (notify (Event.memSet pos val)) (fun _ => fun s => (Except.ok (), setMem s pos val))

/-- VM::reg_index_read: fetch, notify with the value read, return it. -/
def reg_index_readO (notify : Event → M Unit) (index : Nat) : M Nat := fun s =>
  M.bind (notify (Event.regGet index (s.registers index)))
    (fun _ => M.ok (s.registers index)) s

/-- VM::reg_index_write: notify with the value about to be written, then
store. -/
def reg_index_writeO (notify : Event → M Unit) (index val : Nat) : M Unit :=
  M.bind (notify (Event.regSet index val)) (fun _ => fun s => (Except.ok (), setReg s index val))

/-- VM::get_running: fetch, notify with the value read, return it. -/
def get_runningO (notify : Event → M Unit) : M Bool := fun s =>
  M.bind (notify (Event.runningGet s.running)) (fun _ => M.ok s.running) s

/-- VM::set_running: notify with the value about to be written, then
store. -/
def set_runningO (notify : Event → M Unit) (val : Bool) : M Unit :=
  M.bind (notify (Event.runningSet val)) (fun _ => fun s => (Except.ok (), { s with running := val }))

/-- VM::putchar: notify, then write the character to the I/O capability. -/
def putcharO (notify : Event → M Unit) (ch : Char) : M Unit :=
  M.bind (notify (Event.charPut ch))
    (fun _ => fun s =>
      (Except.ok (), { s with io := { s.io with outputs := s.io.outputs ++ [ch] } }))

/-- VM::getchar: read from the I/O capability, then notify with the
character obtained. -/
def getcharO (notify : Event → M Unit) : M Char := fun s =>
  match s.io.inputs with
  | [] => (Except.error LC3Error.ioError, s)
  | c :: rest =>
      M.bind (notify (Event.charGet c)) (fun _ => M.ok c)
        { s with io := { s.io with inputs := rest } }

/-- VM::is_key_down: poll the I/O capability, then notify with the value
obtained. -/
def is_key_downO (notify : Event → M Unit) : M Bool := fun s =>
  match s.io.keydowns with
  | [] => (Except.error LC3Error.ioError, s)
  | b :: rest =>
      M.bind (notify (Event.keyDownGet b)) (fun _ => M.ok b)
        { s with io := { s.io with keydowns := rest } }

/-- VM::mem_read: on the keyboard-status address first poll the key
state; when a key is down write 1 <<< 15 into the status register, fetch
the pending character and write it into the data register; when no key is
down write 0 into the status register.  Then fetch the word at the
requested address, notify with the value read and return it. -/
def mem_readO (notify : Event → M Unit) (pos : Nat) : M Nat :=
  M.bind
    (if pos = KB_STATUS_POS then
       M.bind (is_key_downO notify) (fun kd =>
         if kd then
           M.bind (mem_writeO notify KB_STATUS_POS 32768) (fun _ =>
             M.bind (getcharO notify) (fun ch =>
               mem_writeO notify KB_DATA_POS (ch.toNat % 65536)))
         else
           mem_writeO notify KB_STATUS_POS 0)
     else M.ok ())
    (fun _ => fun s =>
      M.bind (notify (Event.memGet pos (s.memory pos))) (fun _ => M.ok (s.memory pos)) s)

/-- VM::add_plugin: push onto the registry when it is attached; a no-op
(with no event and no error) when the registry is detached. -/
def add_plugin (p : Plugin) : M Unit := fun s =>
  (Except.ok (), { s with plugins := Option.map (fun ps => ps ++ [p]) s.plugins })

/-- Interpretation of a single plugin access (the mutable-VM calls a
plugin may make from handle_event); read accesses record the value they
obtained in the ghost `obs` trace. -/
def runActionO (notify : Event → M Unit) : PAction → M Unit
  | PAction.memRead pos =>
      M.bind (mem_readO notify pos) (fun v => fun s => (Except.ok (), pushObs s v))
  | PAction.memWrite pos val => mem_writeO notify pos val
  | PAction.regRead index =>
      M.bind (reg_index_readO notify index) (fun v => fun s => (Except.ok (), pushObs s v))
  | PAction.regWrite index val => reg_index_writeO notify index val
  | PAction.getRunning =>
      M.bind (get_runningO notify)
        (fun b => fun s => (Except.ok (), pushObs s (if b then 1 else 0)))
  | PAction.setRunning val => set_runningO notify val
  | PAction.putChar ch => putcharO notify ch
  | PAction.getChar => M.bind (getcharO notify) (fun _ => M.ok ())
  | PAction.isKeyDown => M.bind (is_key_downO notify) (fun _ => M.ok ())
  | PAction.addPlugin p => add_plugin p
  | PAction.fail e => M.err e

/-- Run the accesses one plugin makes for an event, in order, stopping at
the first failure. -/
def runActionsO (notify : Event → M Unit) : List PAction → M Unit
  | [] => M.ok ()
  | a :: rest => M.bind (runActionO notify a) (fun _ => runActionsO notify rest)

/-- Deliver one event to each plugin in registration order, stopping at
the first failure (VM::notify_plugins loop body). -/
def runPluginsO (notify : Event → M Unit) : List Plugin → Event → M Unit
  | [], _ => M.ok ()
  | p :: ps, e =>
      M.bind (runActionsO notify (p e)) (fun _ => runPluginsO notify ps e)

/-- VM::notify_plugins, with an explicit bound on the nesting depth of
notification rounds.  Delivering an event detaches the plugin registry,
runs every plugin in registration order on the detached state and
reattaches the registry afterwards; when a plugin fails the error is
propagated at once and the registry stays detached, exactly as the early
return in the source.  A nested notification that finds the registry
detached returns without delivering anything.  Because a round always
runs with the registry detached, every nested call returns at that guard
and any positive bound reproduces the source behaviour exactly; the bound
is consumed only when a round actually starts.  Delivered events are
recorded in the ghost log. -/
def notify_plugins : Nat → Event → M Unit
  | 0, _ => fun s =>
      match s.plugins with
      | none => (Except.ok (), s)
      | some _ => (Except.error (LC3Error.internal "notification depth exhausted"), s)
  | fuel + 1, e => fun s =>
      match s.plugins with
      | none => (Except.ok (), s)
      | some ps =>
          match runPluginsO (notify_plugins fuel) ps e (pushLog { s with plugins := none } e) with
          | (Except.ok _, s2) => (Except.ok (), { s2 with plugins := some ps })
          | (Except.error err, s2) => (Except.error err, s2)

def mem_read (fuel pos : Nat) : M Nat := mem_readO (notify_plugins fuel) pos

def mem_write (fuel pos val : Nat) : M Unit := mem_writeO (notify_plugins fuel) pos val

def reg_index_read (fuel index : Nat) : M Nat := reg_index_readO (notify_plugins fuel) index

def reg_index_write (fuel index val : Nat) : M Unit :=
  reg_index_writeO (notify_plugins fuel) index val

/-- VM::reg_read delegates to reg_index_read via Register::to_u8
(registers are modelled directly by their indices). -/
def reg_read (fuel reg : Nat) : M Nat := reg_index_read fuel reg

/-- VM::reg_write delegates to reg_index_write. -/
def reg_write (fuel reg val : Nat) : M Unit := reg_index_write fuel reg val

def putchar (fuel : Nat) (ch : Char) : M Unit := putcharO (notify_plugins fuel) ch

def getchar (fuel : Nat) : M Char := getcharO (notify_plugins fuel)

def is_key_down (fuel : Nat) : M Bool := is_key_downO (notify_plugins fuel)

def get_running (fuel : Nat) : M Bool := get_runningO (notify_plugins fuel)

def set_running (fuel : Nat) (val : Bool) : M Unit := set_runningO (notify_plugins fuel) val

/-- VM::update_flags: read the register, pick FL_ZRO for zero, FL_NEG
when bit 15 is set and FL_POS otherwise, and write the flag into the
condition-flags register. -/
def update_flags (fuel register_index : Nat) : M Unit :=
  M.bind (reg_index_read fuel register_index) (fun value =>
    reg_write fuel RCond
      (if value = 0 then FL_ZRO else if value >>> 15 = 1 then FL_NEG else FL_POS))

/-- The write loop of VM::load_program: word number `index` goes to
address PC_START + (index as u16), with the u16 cast and the 16-bit
addition made explicit. -/
def loadLoop (fuel : Nat) : List Nat → Nat → M Unit
  | [], _ => M.ok ()
  | instruction :: rest, index =>
      M.bind (mem_write fuel ((PC_START + index % 65536) % 65536) instruction)
        (fun _ => loadLoop fuel rest (index + 1))

/-- VM::load_program: reject a program longer than
MEMORY_SIZE - PC_START words before touching any state, otherwise write
the words consecutively from PC_START. -/
def load_program (fuel : Nat) (program : List Nat) : M Unit := fun s =>
  if program.length > MEMORY_SIZE - PC_START then
    (Except.error (LC3Error.programSize program.length (MEMORY_SIZE - PC_START)), s)
  else
    loadLoop fuel program 0 s

/-- Modelled from the spec: command.rs; an instruction retains the raw
16-bit word (the u16 argument type is reflected by an explicit
reduction). -/
structure Command where
  bytes : Nat

def Command.new (w : Nat) : Command := ⟨w % 65536⟩

def Command.get_bytes (c : Command) : Nat := c.bytes

/-- Modelled from the spec: the opcode is the high four bits of the
word. -/
def Command.op_code (c : Command) : Nat := c.bytes >>> 12

/-- Modelled from the spec: the sixteen opcodes of op.rs, in LC-3
encoding order. -/
inductive Op where
  | br | add | ld | st | jsr | and | ldr | str
  | rti | not | ldi | sti | jmp | res | lea | trap
deriving DecidableEq

/-- Modelled from the spec: Op::from_int; the four-bit opcode space is
exactly saturated, values above 15 cannot arise from a 16-bit word. -/
def Op.from_int : Nat → Except LC3Error Op
  | 0 => Except.ok Op.br
  | 1 => Except.ok Op.add
  | 2 => Except.ok Op.ld
  | 3 => Except.ok Op.st
  | 4 => Except.ok Op.jsr
  | 5 => Except.ok Op.and
  | 6 => Except.ok Op.ldr
  | 7 => Except.ok Op.str
  | 8 => Except.ok Op.rti
  | 9 => Except.ok Op.not
  | 10 => Except.ok Op.ldi
  | 11 => Except.ok Op.sti
  | 12 => Except.ok Op.jmp
  | 13 => Except.ok Op.res
  | 14 => Except.ok Op.lea
  | 15 => Except.ok Op.trap
  | n + 16 => Except.error (LC3Error.internal (toString (n + 16)))

/-- Modelled from the spec: two's-complement sign extension of a
bit_count-bit field to 16 bits (utils.rs). -/
def sign_extend (x bit_count : Nat) : Nat :=
  if (x >>> (bit_count - 1)) &&& 1 = 1 then (x + (65536 - 2 ^ bit_count)) % 65536 else x

/-- Modelled from the spec: the BR handler; add the sign-extended 9-bit
offset to PC when a condition bit matches the flags register. -/
def handler.branch (fuel : Nat) (c : Command) : M Unit :=
  M.bind (reg_read fuel RCond) (fun flags =>
    if (c.bytes >>> 9) &&& 7 &&& flags ≠ 0 then
      M.bind (reg_read fuel RPC) (fun pc =>
        reg_write fuel RPC ((pc + sign_extend (c.bytes &&& 0x1FF) 9) % 65536))
    else M.ok ())

/-- Modelled from the spec: the ADD handler (register or sign-extended
5-bit immediate mode, modular 16-bit sum, flags updated). -/
def handler.add (fuel : Nat) (c : Command) : M Unit :=
  M.bind (reg_index_read fuel ((c.bytes >>> 6) &&& 7)) (fun v1 =>
    M.bind
      (if (c.bytes >>> 5) &&& 1 = 1 then M.ok (sign_extend (c.bytes &&& 0x1F) 5)
       else reg_index_read fuel (c.bytes &&& 7))
      (fun v2 =>
        M.bind (reg_index_write fuel ((c.bytes >>> 9) &&& 7) ((v1 + v2) % 65536))
          (fun _ => update_flags fuel ((c.bytes >>> 9) &&& 7))))

/-- Modelled from the spec: the AND handler. -/
def handler.and (fuel : Nat) (c : Command) : M Unit :=
  M.bind (reg_index_read fuel ((c.bytes >>> 6) &&& 7)) (fun v1 =>
    M.bind
      (if (c.bytes >>> 5) &&& 1 = 1 then M.ok (sign_extend (c.bytes &&& 0x1F) 5)
       else reg_index_read fuel (c.bytes &&& 7))
      (fun v2 =>
        M.bind (reg_index_write fuel ((c.bytes >>> 9) &&& 7) (v1 &&& v2))
          (fun _ => update_flags fuel ((c.bytes >>> 9) &&& 7))))

/-- Modelled from the spec: the NOT handler (16-bit complement, flags
updated). -/
def handler.not (fuel : Nat) (c : Command) : M Unit :=
  M.bind (reg_index_read fuel ((c.bytes >>> 6) &&& 7)) (fun v =>
    M.bind (reg_index_write fuel ((c.bytes >>> 9) &&& 7) (v ^^^ 65535))
      (fun _ => update_flags fuel ((c.bytes >>> 9) &&& 7)))

/-- Modelled from the spec: the LD handler (PC-relative load, flags
updated). -/
def handler.load (fuel : Nat) (c : Command) : M Unit :=
  M.bind (reg_read fuel RPC) (fun pc =>
    M.bind (mem_read fuel ((pc + sign_extend (c.bytes &&& 0x1FF) 9) % 65536)) (fun v =>
      M.bind (reg_index_write fuel ((c.bytes >>> 9) &&& 7) v)
        (fun _ => update_flags fuel ((c.bytes >>> 9) &&& 7))))

/-- Modelled from the spec: the LDI handler (PC-relative then one more
indirection, flags updated). -/
def handler.load_indirect (fuel : Nat) (c : Command) : M Unit :=
  M.bind (reg_read fuel RPC) (fun pc =>
    M.bind (mem_read fuel ((pc + sign_extend (c.bytes &&& 0x1FF) 9) % 65536)) (fun a =>
      M.bind (mem_read fuel a) (fun v =>
        M.bind (reg_index_write fuel ((c.bytes >>> 9) &&& 7) v)
          (fun _ => update_flags fuel ((c.bytes >>> 9) &&& 7)))))

/-- Modelled from the spec: the LDR handler (base register + 6-bit
offset, flags updated). -/
def handler.load_register (fuel : Nat) (c : Command) : M Unit :=
  M.bind (reg_index_read fuel ((c.bytes >>> 6) &&& 7)) (fun base =>
    M.bind (mem_read fuel ((base + sign_extend (c.bytes &&& 0x3F) 6) % 65536)) (fun v =>
      M.bind (reg_index_write fuel ((c.bytes >>> 9) &&& 7) v)
        (fun _ => update_flags fuel ((c.bytes >>> 9) &&& 7))))

/-- Modelled from the spec: the LEA handler (the effective address itself
is loaded, flags updated). -/
def handler.load_effective_address (fuel : Nat) (c : Command) : M Unit :=
  M.bind (reg_read fuel RPC) (fun pc =>
    M.bind
      (reg_index_write fuel ((c.bytes >>> 9) &&& 7)
        ((pc + sign_extend (c.bytes &&& 0x1FF) 9) % 65536))
      (fun _ => update_flags fuel ((c.bytes >>> 9) &&& 7)))

/-- Modelled from the spec: the ST handler (PC-relative store, no flag
update). -/
def handler.store (fuel : Nat) (c : Command) : M Unit :=
  M.bind (reg_read fuel RPC) (fun pc =>
    M.bind (reg_index_read fuel ((c.bytes >>> 9) &&& 7)) (fun v =>
      mem_write fuel ((pc + sign_extend (c.bytes &&& 0x1FF) 9) % 65536) v))

/-- Modelled from the spec: the STI handler (indirect store). -/
def handler.store_indirect (fuel : Nat) (c : Command) : M Unit :=
  M.bind (reg_read fuel RPC) (fun pc =>
    M.bind (mem_read fuel ((pc + sign_extend (c.bytes &&& 0x1FF) 9) % 65536)) (fun a =>
      M.bind (reg_index_read fuel ((c.bytes >>> 9) &&& 7)) (fun v =>
        mem_write fuel a v)))

/-- Modelled from the spec: the STR handler (base register + 6-bit
offset store). -/
def handler.store_register (fuel : Nat) (c : Command) : M Unit :=
  M.bind (reg_index_read fuel ((c.bytes >>> 6) &&& 7)) (fun base =>
    M.bind (reg_index_read fuel ((c.bytes >>> 9) &&& 7)) (fun v =>
      mem_write fuel ((base + sign_extend (c.bytes &&& 0x3F) 6) % 65536) v))

/-- Modelled from the spec: the JMP handler (PC from a base register). -/
def handler.jump (fuel : Nat) (c : Command) : M Unit :=
  M.bind (reg_index_read fuel ((c.bytes >>> 6) &&& 7)) (fun v =>
    reg_write fuel RPC v)

/-- Modelled from the spec: the JSR handler (save PC to register 7, then
PC-relative 11-bit or base-register jump, by the mode bit). -/
def handler.jump_register (fuel : Nat) (c : Command) : M Unit :=
  M.bind (reg_read fuel RPC) (fun pc =>
    M.bind (reg_index_write fuel 7 pc) (fun _ =>
      if (c.bytes >>> 11) &&& 1 = 1 then
        reg_write fuel RPC ((pc + sign_extend (c.bytes &&& 0x7FF) 11) % 65536)
      else
        M.bind (reg_index_read fuel ((c.bytes >>> 6) &&& 7)) (fun base =>
          reg_write fuel RPC base)))

/-- Modelled from the spec: RTI is reserved for privileged semantics and
is surfaced as an unimplemented-opcode error. -/
def handler.rti (_fuel : Nat) (_c : Command) : M Unit := M.err LC3Error.unimplementedOpcode

/-- Modelled from the spec: the reserved opcode is surfaced as an
unimplemented-opcode error. -/
def handler.reserved (_fuel : Nat) (_c : Command) : M Unit :=
  M.err LC3Error.unimplementedOpcode

/-- Modelled from the spec: the PUTS trap loop; print one character per
word until a zero word, with a bound larger than the address space in
place of the unbounded source loop. -/
def putsLoop (fuel : Nat) : Nat → Nat → M Unit
  | 0, _ => M.err (LC3Error.internal "string loop bound exhausted")
  | bound + 1, addr =>
      M.bind (mem_read fuel addr) (fun w =>
        if w = 0 then M.ok ()
        else
          M.bind (putchar fuel (Char.ofNat (w % 256)))
            (fun _ => putsLoop fuel bound ((addr + 1) % 65536)))

/-- Modelled from the spec: the PUTSP trap loop; two packed characters
per word, low byte first, until a zero word. -/
def putspLoop (fuel : Nat) : Nat → Nat → M Unit
  | 0, _ => M.err (LC3Error.internal "string loop bound exhausted")
  | bound + 1, addr =>
      M.bind (mem_read fuel addr) (fun w =>
        if w = 0 then M.ok ()
        else
          M.bind (putchar fuel (Char.ofNat (w &&& 255))) (fun _ =>
            M.bind
              (if w >>> 8 = 0 then M.ok () else putchar fuel (Char.ofNat ((w >>> 8) % 256)))
              (fun _ => putspLoop fuel bound ((addr + 1) % 65536))))

/-- Modelled from the spec: the TRAP dispatcher of trap.rs on the low
eight bits of the instruction (GETC, OUT, PUTS, IN, PUTSP, HALT; an
unknown vector is an error). -/
def handler.trap (fuel : Nat) (c : Command) : M Unit :=
  if c.bytes &&& 255 = 0x20 then
    M.bind (getchar fuel) (fun ch => reg_index_write fuel 0 (ch.toNat % 65536))
  else if c.bytes &&& 255 = 0x21 then
    M.bind (reg_index_read fuel 0) (fun v => putchar fuel (Char.ofNat (v % 256)))
  else if c.bytes &&& 255 = 0x22 then
    M.bind (reg_index_read fuel 0) (fun addr => putsLoop fuel (MEMORY_SIZE + 1) addr)
  else if c.bytes &&& 255 = 0x23 then
    M.bind (getchar fuel) (fun ch =>
      M.bind (putchar fuel ch) (fun _ => reg_index_write fuel 0 (ch.toNat % 65536)))
  else if c.bytes &&& 255 = 0x24 then
    M.bind (reg_index_read fuel 0) (fun addr => putspLoop fuel (MEMORY_SIZE + 1) addr)
  else if c.bytes &&& 255 = 0x25 then
    set_running fuel false
  else M.err (LC3Error.unknownTrap (c.bytes &&& 255))

/-- VM::run_command: notify the raw instruction word, decode the opcode
and dispatch to exactly one handler. -/
def run_command (fuel : Nat) (c : Command) : M Unit :=
  M.bind (notify_plugins fuel (Event.command c.get_bytes)) (fun _ =>
    match Op.from_int c.op_code with
    | Except.error e => M.err e
    | Except.ok Op.br => handler.branch fuel c
    | Except.ok Op.add => handler.add fuel c
    | Except.ok Op.ld => handler.load fuel c
    | Except.ok Op.st => handler.store fuel c
    | Except.ok Op.jsr => handler.jump_register fuel c
    | Except.ok Op.and => handler.and fuel c
    | Except.ok Op.ldr => handler.load_register fuel c
    | Except.ok Op.str => handler.store_register fuel c
    | Except.ok Op.rti => handler.rti fuel c
    | Except.ok Op.not => handler.not fuel c
    | Except.ok Op.ldi => handler.load_indirect fuel c
    | Except.ok Op.sti => handler.store_indirect fuel c
    | Except.ok Op.jmp => handler.jump fuel c
    | Except.ok Op.res => handler.reserved fuel c
    | Except.ok Op.lea => handler.load_effective_address fuel c
    | Except.ok Op.trap => handler.trap fuel c)

/-- The while loop of VM::run with an explicit iteration bound in place
of the unbounded source loop: check the running flag once per
instruction; while it reads true, read PC, write back PC + 1 (16-bit
wrap), fetch the word at the pre-increment PC, decode and dispatch. -/
def runLoop (fuel : Nat) : Nat → M Unit
  | 0 => M.err (LC3Error.internal "iteration bound exhausted")
  | steps + 1 =>
      M.bind (get_running fuel) (fun r =>
        if r then
          M.bind (reg_read fuel RPC) (fun program_count =>
            M.bind (reg_write fuel RPC ((program_count + 1) % 65536)) (fun _ =>
              M.bind (mem_read fuel program_count) (fun w =>
                M.bind (run_command fuel (Command.new w)) (fun _ =>
                  runLoop fuel steps))))
        else M.ok ())

/-- VM::run: set running to true, set PC to PC_START, then loop. -/
def run (fuel steps : Nat) : M Unit :=
  M.bind (set_running fuel true) (fun _ =>
    M.bind (reg_write fuel RPC PC_START) (fun _ => runLoop fuel steps))

/-- VM::new_with_io: zeroed memory and registers, not running, an
attached empty plugin registry (ghost traces empty). -/
def new_with_io (io : IOState) : VMState :=
  { memory := fun _ => 0
    registers := fun _ => 0
    running := false
    io := io
    plugins := some []
    log := []
    obs := [] }

/-- VM::new delegates to new_with_io; the real terminal I/O handle is
external and is modelled by empty queues. -/
def new : VMState := new_with_io { keydowns := [], inputs := [], outputs := [] }

/-! ### Monad computation lemmas -/

theorem M.bind_ok {α β : Type} (x : M α) (f : α → M β) (s s1 : VMState) (a : α)
    (h : x s = (Except.ok a, s1)) : M.bind x f s = f a s1 := by
  simp [M.bind, h]

theorem M.bind_err {α β : Type} (x : M α) (f : α → M β) (s s1 : VMState) (e : LC3Error)
    (h : x s = (Except.error e, s1)) : M.bind x f s = (Except.error e, s1) := by
  simp [M.bind, h]

/-! ### A detached registry suppresses all notification

`KeepsDetached m` says: started with the plugin registry detached, the
computation `m` leaves it detached and delivers no event (the ghost log
is unchanged).  This is the invariant of a notification round in
progress. -/

def KeepsDetached {α : Type} (m : M α) : Prop :=
  ∀ s : VMState, s.plugins = none → (m s).2.plugins = none ∧ (m s).2.log = s.log

theorem KeepsDetached.bind {α β : Type} {x : M α} {f : α → M β}
    (hx : KeepsDetached x) (hf : ∀ a, KeepsDetached (f a)) :
    KeepsDetached (M.bind x f) := by
  intro s h
  rcases hxs : x s with ⟨r, s1⟩
  have h1 := hx s h
  rw [hxs] at h1
  cases r with
  | ok a =>
      have h2 := hf a s1 h1.1
      constructor
      · rw [M.bind_ok x f s s1 a hxs]
        exact h2.1
      · rw [M.bind_ok x f s s1 a hxs, h2.2]
        exact h1.2
  | error e =>
      rw [M.bind_err x f s s1 e hxs]
      exact h1

theorem notify_plugins_none (f : Nat) (e : Event) (s : VMState) (h : s.plugins = none) :
    notify_plugins f e s = (Except.ok (), s) := by
  cases f <;> simp [notify_plugins, h]

theorem keepsDetached_notify (f : Nat) (e : Event) :
    KeepsDetached (notify_plugins f e) := by
  intro s h
  rw [notify_plugins_none f e s h]
  exact ⟨h, rfl⟩

theorem keepsDetached_mem_writeO (f pos val : Nat) :
    KeepsDetached (mem_writeO (notify_plugins f) pos val) := by
  apply KeepsDetached.bind (keepsDetached_notify f _)
  intro a s h
  exact ⟨h, rfl⟩

theorem keepsDetached_reg_index_writeO (f index val : Nat) :
    KeepsDetached (reg_index_writeO (notify_plugins f) index val) := by
  apply KeepsDetached.bind (keepsDetached_notify f _)
  intro a s h
  exact ⟨h, rfl⟩

theorem keepsDetached_set_runningO (f : Nat) (val : Bool) :
    KeepsDetached (set_runningO (notify_plugins f) val) := by
  apply KeepsDetached.bind (keepsDetached_notify f _)
  intro a s h
  exact ⟨h, rfl⟩

theorem keepsDetached_putcharO (f : Nat) (ch : Char) :
    KeepsDetached (putcharO (notify_plugins f) ch) := by
  apply KeepsDetached.bind (keepsDetached_notify f _)
  intro a s h
  exact ⟨h, rfl⟩

theorem keepsDetached_reg_index_readO (f index : Nat) :
    KeepsDetached (reg_index_readO (notify_plugins f) index) := by
  intro s h
  show ((M.bind (notify_plugins f _) _) s).2.plugins = none ∧ _
  have := (keepsDetached_notify f (Event.regGet index (s.registers index))).bind
    (f := fun _ => M.ok (s.registers index)) (fun a t ht => ⟨ht, rfl⟩)
  exact this s h

theorem keepsDetached_get_runningO (f : Nat) :
    KeepsDetached (get_runningO (notify_plugins f)) := by
  intro s h
  have := (keepsDetached_notify f (Event.runningGet s.running)).bind
    (f := fun _ => M.ok s.running) (fun a t ht => ⟨ht, rfl⟩)
  exact this s h

theorem keepsDetached_getcharO (f : Nat) :
    KeepsDetached (getcharO (notify_plugins f)) := by
  intro s h
  rcases hi : s.io.inputs with _ | ⟨c, rest⟩
  · simp [getcharO, hi, h]
  · show ((getcharO (notify_plugins f)) s).2.plugins = none ∧ _
    rw [getcharO]
    rw [hi]
    have := (keepsDetached_notify f (Event.charGet c)).bind
      (f := fun _ => M.ok c) (fun a t ht => ⟨ht, rfl⟩)
    exact this _ h

theorem keepsDetached_is_key_downO (f : Nat) :
    KeepsDetached (is_key_downO (notify_plugins f)) := by
  intro s h
  rcases hk : s.io.keydowns with _ | ⟨b, rest⟩
  · simp [is_key_downO, hk, h]
  · rw [is_key_downO]
    rw [hk]
    have := (keepsDetached_notify f (Event.keyDownGet b)).bind
      (f := fun _ => M.ok b) (fun a t ht => ⟨ht, rfl⟩)
    exact this _ h

theorem keepsDetached_mem_readO (f pos : Nat) :
    KeepsDetached (mem_readO (notify_plugins f) pos) := by
  rw [mem_readO]
  apply KeepsDetached.bind
  · by_cases hp : pos = KB_STATUS_POS
    · rw [if_pos hp]
      apply KeepsDetached.bind (keepsDetached_is_key_downO f)
      intro kd
      cases kd
      · exact keepsDetached_mem_writeO f KB_STATUS_POS 0
      · simp only [if_pos rfl]
        apply KeepsDetached.bind (keepsDetached_mem_writeO f KB_STATUS_POS 32768)
        intro a
        apply KeepsDetached.bind (keepsDetached_getcharO f)
        intro ch
        exact keepsDetached_mem_writeO f KB_DATA_POS (ch.toNat % 65536)
    · rw [if_neg hp]
      intro s h
      exact ⟨h, rfl⟩
  · intro a
    intro s h
    have := (keepsDetached_notify f (Event.memGet pos (s.memory pos))).bind
      (f := fun _ => M.ok (s.memory pos)) (fun a t ht => ⟨ht, rfl⟩)
    exact this s h

theorem keepsDetached_add_plugin (p : Plugin) : KeepsDetached (add_plugin p) := by
  intro s h
  simp [add_plugin, h]

theorem keepsDetached_runActionO (f : Nat) (a : PAction) :
    KeepsDetached (runActionO (notify_plugins f) a) := by
  cases a with
  | memRead pos =>
      exact (keepsDetached_mem_readO f pos).bind (fun v s h => ⟨h, rfl⟩)
  | memWrite pos val => exact keepsDetached_mem_writeO f pos val
  | regRead index =>
      exact (keepsDetached_reg_index_readO f index).bind (fun v s h => ⟨h, rfl⟩)
  | regWrite index val => exact keepsDetached_reg_index_writeO f index val
  | getRunning =>
      exact (keepsDetached_get_runningO f).bind (fun v s h => ⟨h, rfl⟩)
  | setRunning val => exact keepsDetached_set_runningO f val
  | putChar ch => exact keepsDetached_putcharO f ch
  | getChar => exact (keepsDetached_getcharO f).bind (fun v s h => ⟨h, rfl⟩)
  | isKeyDown => exact (keepsDetached_is_key_downO f).bind (fun v s h => ⟨h, rfl⟩)
  | addPlugin p => exact keepsDetached_add_plugin p
  | fail e => exact fun s h => ⟨h, rfl⟩

theorem keepsDetached_runActionsO (f : Nat) (acts : List PAction) :
    KeepsDetached (runActionsO (notify_plugins f) acts) := by
  induction acts with
  | nil => exact fun s h => ⟨h, rfl⟩
  | cons a rest ih =>
      exact (keepsDetached_runActionO f a).bind (fun _ => ih)

theorem keepsDetached_runPluginsO (f : Nat) (ps : List Plugin) (e : Event) :
    KeepsDetached (runPluginsO (notify_plugins f) ps e) := by
  induction ps with
  | nil => exact fun s h => ⟨h, rfl⟩
  | cons p rest ih =>
      exact (keepsDetached_runActionsO f (p e)).bind (fun _ => ih)

/-! ### Delivering an event with the registry attached -/

theorem notify_plugins_some_ok (f : Nat) (e : Event) (s s1 : VMState) (ps : List Plugin)
    (h : s.plugins = some ps) (hr : notify_plugins (f + 1) e s = (Except.ok (), s1)) :
    s1.plugins = some ps ∧ s1.log = s.log ++ [e] := by
  simp only [notify_plugins, h] at hr
  rcases hrun : runPluginsO (notify_plugins f) ps e (pushLog { s with plugins := none } e)
    with ⟨r, s2⟩
  rw [hrun] at hr
  have hframe := keepsDetached_runPluginsO f ps e (pushLog { s with plugins := none } e)
    (by simp [pushLog])
  rw [hrun] at hframe
  cases r with
  | ok a =>
      simp only at hr
      have hs1 : s1 = { s2 with plugins := some ps } := by
        have := congrArg Prod.snd hr
        simpa using this.symm
      rw [hs1]
      refine ⟨rfl, ?_⟩
      have := hframe.2
      simp only [pushLog] at this
      simpa using this
  | error err => simp at hr

/-- A list of plugins that react to every event with no accesses at all. -/
def passive (ps : List Plugin) : Prop := ∀ p, p ∈ ps → ∀ e, p e = []

theorem runPluginsO_passive (n : Event → M Unit) (ps : List Plugin) (e : Event)
    (hp : passive ps) (s : VMState) : runPluginsO n ps e s = (Except.ok (), s) := by
  induction ps generalizing s with
  | nil => simp [runPluginsO, M.ok]
  | cons p rest ih =>
      have hpe : p e = [] := hp p (List.mem_cons_self p rest) e
      have hrest : passive rest := fun q hq => hp q (List.mem_cons_of_mem p hq)
      simp [runPluginsO, hpe, runActionsO, M.bind, M.ok, ih hrest]

theorem notify_plugins_passive (f : Nat) (e : Event) (s : VMState) (ps : List Plugin)
    (h : s.plugins = some ps) (hp : passive ps) :
    notify_plugins (f + 1) e s = (Except.ok (), pushLog s e) := by
  rcases s with ⟨mem, regs, run, io, plg, log, obs⟩
  simp only at h
  subst h
  simp [notify_plugins, runPluginsO_passive _ _ _ hp, pushLog]

/-! ### Accessors in the presence of passive plugins

With the registry attached and every installed plugin passive, each
accessor performs exactly its state effect and logs exactly one event. -/

theorem mem_write_passive (f pos val : Nat) (s : VMState) (ps : List Plugin)
    (h : s.plugins = some ps) (hp : passive ps) :
    mem_write (f + 1) pos val s =
      (Except.ok (), setMem (pushLog s (Event.memSet pos val)) pos val) := by
  rw [mem_write, mem_writeO,
    M.bind_ok _ _ s (pushLog s (Event.memSet pos val)) ()
      (notify_plugins_passive f _ s ps h hp)]

theorem reg_index_write_passive (f index val : Nat) (s : VMState) (ps : List Plugin)
    (h : s.plugins = some ps) (hp : passive ps) :
    reg_index_write (f + 1) index val s =
      (Except.ok (), setReg (pushLog s (Event.regSet index val)) index val) := by
  rw [reg_index_write, reg_index_writeO,
    M.bind_ok _ _ s (pushLog s (Event.regSet index val)) ()
      (notify_plugins_passive f _ s ps h hp)]

theorem reg_index_read_passive (f index : Nat) (s : VMState) (ps : List Plugin)
    (h : s.plugins = some ps) (hp : passive ps) :
    reg_index_read (f + 1) index s =
      (Except.ok (s.registers index),
        pushLog s (Event.regGet index (s.registers index))) := by
  rw [reg_index_read, reg_index_readO,
    M.bind_ok _ _ s (pushLog s (Event.regGet index (s.registers index))) ()
      (notify_plugins_passive f _ s ps h hp)]
  rfl

theorem get_running_passive (f : Nat) (s : VMState) (ps : List Plugin)
    (h : s.plugins = some ps) (hp : passive ps) :
    get_running (f + 1) s =
      (Except.ok s.running, pushLog s (Event.runningGet s.running)) := by
  rw [get_running, get_runningO,
    M.bind_ok _ _ s (pushLog s (Event.runningGet s.running)) ()
      (notify_plugins_passive f _ s ps h hp)]
  rfl

theorem set_running_passive (f : Nat) (val : Bool) (s : VMState) (ps : List Plugin)
    (h : s.plugins = some ps) (hp : passive ps) :
    set_running (f + 1) val s =
      (Except.ok (), { pushLog s (Event.runningSet val) with running := val }) := by
  rw [set_running, set_runningO,
    M.bind_ok _ _ s (pushLog s (Event.runningSet val)) ()
      (notify_plugins_passive f _ s ps h hp)]

theorem putchar_passive (f : Nat) (ch : Char) (s : VMState) (ps : List Plugin)
    (h : s.plugins = some ps) (hp : passive ps) :
    putchar (f + 1) ch s =
      (Except.ok (),
        { pushLog s (Event.charPut ch) with
            io := { s.io with outputs := s.io.outputs ++ [ch] } }) := by
  rw [putchar, putcharO,
    M.bind_ok _ _ s (pushLog s (Event.charPut ch)) ()
      (notify_plugins_passive f _ s ps h hp)]
  simp [pushLog]

theorem getchar_passive (f : Nat) (s : VMState) (ps : List Plugin) (c : Char)
    (rest : List Char) (h : s.plugins = some ps) (hp : passive ps)
    (hi : s.io.inputs = c :: rest) :
    getchar (f + 1) s =
      (Except.ok c,
        pushLog { s with io := { s.io with inputs := rest } } (Event.charGet c)) := by
  rw [getchar, getcharO]
  simp only [hi]
  rw [M.bind_ok _ _ _ (pushLog { s with io := { s.io with inputs := rest } } (Event.charGet c)) ()
    (notify_plugins_passive f _ _ ps (by simp [h]) hp)]
  rfl

theorem is_key_down_passive (f : Nat) (s : VMState) (ps : List Plugin) (b : Bool)
    (rest : List Bool) (h : s.plugins = some ps) (hp : passive ps)
    (hk : s.io.keydowns = b :: rest) :
    is_key_down (f + 1) s =
      (Except.ok b,
        pushLog { s with io := { s.io with keydowns := rest } } (Event.keyDownGet b)) := by
  rw [is_key_down, is_key_downO]
  simp only [hk]
  rw [M.bind_ok _ _ _
    (pushLog { s with io := { s.io with keydowns := rest } } (Event.keyDownGet b)) ()
    (notify_plugins_passive f _ _ ps (by simp [h]) hp)]
  rfl

theorem mem_read_passive_plain (f pos : Nat) (s : VMState) (ps : List Plugin)
    (h : s.plugins = some ps) (hp : passive ps) (hpos : pos ≠ KB_STATUS_POS) :
    mem_read (f + 1) pos s =
      (Except.ok (s.memory pos), pushLog s (Event.memGet pos (s.memory pos))) := by
  rw [mem_read, mem_readO, if_neg hpos]
  rw [M.bind_ok _ _ s s () (by rfl)]
  rw [M.bind_ok _ _ s (pushLog s (Event.memGet pos (s.memory pos))) ()
    (notify_plugins_passive f _ s ps h hp)]
  rfl

theorem mem_read_passive_key (f : Nat) (s : VMState) (ps : List Plugin) (kd : List Bool)
    (c : Char) (inp : List Char) (h : s.plugins = some ps) (hp : passive ps)
    (hk : s.io.keydowns = true :: kd) (hi : s.io.inputs = c :: inp) :
    mem_read (f + 1) KB_STATUS_POS s =
      (Except.ok 32768,
        { s with
            memory := fun a =>
              if a = KB_DATA_POS then c.toNat % 65536
              else if a = KB_STATUS_POS then 32768 else s.memory a
            io := { s.io with keydowns := kd, inputs := inp }
            log := s.log ++
              [Event.keyDownGet true, Event.memSet KB_STATUS_POS 32768, Event.charGet c,
                Event.memSet KB_DATA_POS (c.toNat % 65536),
                Event.memGet KB_STATUS_POS 32768] }) := by
  set sB : VMState :=
    pushLog { s with io := { s.io with keydowns := kd } } (Event.keyDownGet true) with hsB
  set sD : VMState :=
    setMem (pushLog sB (Event.memSet KB_STATUS_POS 32768)) KB_STATUS_POS 32768 with hsD
  set sF : VMState :=
    pushLog { sD with io := { sD.io with inputs := inp } } (Event.charGet c) with hsF
  set sH : VMState :=
    setMem (pushLog sF (Event.memSet KB_DATA_POS (c.toNat % 65536))) KB_DATA_POS
      (c.toNat % 65536) with hsH
  have hB : sB.plugins = some ps := by simp [hsB, pushLog, h]
  have hD : sD.plugins = some ps := by simp [hsD, setMem, pushLog, hB]
  have hDi : sD.io.inputs = c :: inp := by simp [hsD, hsB, setMem, pushLog, hi]
  have hF : sF.plugins = some ps := by simp [hsF, pushLog, hD]
  have hH : sH.plugins = some ps := by simp [hsH, setMem, pushLog, hF]
  have h1 : is_key_downO (notify_plugins (f + 1)) s = (Except.ok true, sB) :=
    is_key_down_passive f s ps true kd h hp hk
  have h2 : mem_writeO (notify_plugins (f + 1)) KB_STATUS_POS 32768 sB =
      (Except.ok (), sD) :=
    mem_write_passive f KB_STATUS_POS 32768 sB ps hB hp
  have h3 : getcharO (notify_plugins (f + 1)) sD = (Except.ok c, sF) := by
    have := getchar_passive f sD ps c inp hD hp hDi
    rw [getchar] at this
    rw [this, hsF]
  have h4 : mem_writeO (notify_plugins (f + 1)) KB_DATA_POS (c.toNat % 65536) sF =
      (Except.ok (), sH) :=
    mem_write_passive f KB_DATA_POS (c.toNat % 65536) sF ps hF hp
  have hA : M.bind (is_key_downO (notify_plugins (f + 1)))
      (fun kd =>
        if kd = true then
          M.bind (mem_writeO (notify_plugins (f + 1)) KB_STATUS_POS 32768) (fun _ =>
            M.bind (getcharO (notify_plugins (f + 1))) (fun ch =>
              mem_writeO (notify_plugins (f + 1)) KB_DATA_POS (ch.toNat % 65536)))
        else mem_writeO (notify_plugins (f + 1)) KB_STATUS_POS 0) s =
      (Except.ok (), sH) := by
    rw [M.bind_ok _ _ s sB true h1]
    rw [if_pos rfl]
    rw [M.bind_ok _ _ sB sD () h2]
    rw [M.bind_ok _ _ sD sF c h3]
    exact h4
  rw [mem_read, mem_readO, if_pos rfl]
  rw [M.bind_ok _ _ s sH () hA]
  rw [M.bind_ok _ _ sH (pushLog sH (Event.memGet KB_STATUS_POS (sH.memory KB_STATUS_POS))) ()
    (notify_plugins_passive f _ sH ps hH hp)]
  have hmem : sH.memory KB_STATUS_POS = 32768 := by
    simp [hsH, hsF, hsD, hsB, setMem, pushLog, KB_STATUS_POS, KB_DATA_POS]
  rw [M.ok]
  rw [hmem]
  simp only [hsH, hsF, hsD, hsB, setMem, pushLog]
  simp [KB_STATUS_POS, KB_DATA_POS]

theorem mem_read_passive_nokey (f : Nat) (s : VMState) (ps : List Plugin) (kd : List Bool)
    (h : s.plugins = some ps) (hp : passive ps) (hk : s.io.keydowns = false :: kd) :
    mem_read (f + 1) KB_STATUS_POS s =
      (Except.ok 0,
        { s with
            memory := fun a => if a = KB_STATUS_POS then 0 else s.memory a
            io := { s.io with keydowns := kd }
            log := s.log ++
              [Event.keyDownGet false, Event.memSet KB_STATUS_POS 0,
                Event.memGet KB_STATUS_POS 0] }) := by
  set sB : VMState :=
    pushLog { s with io := { s.io with keydowns := kd } } (Event.keyDownGet false) with hsB
  set sD : VMState :=
    setMem (pushLog sB (Event.memSet KB_STATUS_POS 0)) KB_STATUS_POS 0 with hsD
  have hB : sB.plugins = some ps := by simp [hsB, pushLog, h]
  have hD : sD.plugins = some ps := by simp [hsD, setMem, pushLog, hB]
  have h1 : is_key_downO (notify_plugins (f + 1)) s = (Except.ok false, sB) :=
    is_key_down_passive f s ps false kd h hp hk
  have h2 : mem_writeO (notify_plugins (f + 1)) KB_STATUS_POS 0 sB =
      (Except.ok (), sD) :=
    mem_write_passive f KB_STATUS_POS 0 sB ps hB hp
  rw [mem_read, mem_readO, if_pos rfl]
  have hA : M.bind (is_key_downO (notify_plugins (f + 1)))
      (fun kd =>
        if kd = true then
          M.bind (mem_writeO (notify_plugins (f + 1)) KB_STATUS_POS 32768) (fun _ =>
            M.bind (getcharO (notify_plugins (f + 1))) (fun ch =>
              mem_writeO (notify_plugins (f + 1)) KB_DATA_POS (ch.toNat % 65536)))
        else mem_writeO (notify_plugins (f + 1)) KB_STATUS_POS 0) s =
      (Except.ok (), sD) := by
    rw [M.bind_ok _ _ s sB false h1]
    rw [if_neg Bool.false_ne_true]
    exact h2
  rw [M.bind_ok _ _ s sD () hA]
  rw [M.bind_ok _ _ sD (pushLog sD (Event.memGet KB_STATUS_POS (sD.memory KB_STATUS_POS))) ()
    (notify_plugins_passive f _ sD ps hD hp)]
  have hmem : sD.memory KB_STATUS_POS = 0 := by
    simp [hsD, setMem, pushLog]
  rw [M.ok]
  rw [hmem]
  simp only [hsD, hsB, setMem, pushLog]
  simp

/-! ### Claim C1 -/

def isKbDataSet : Event → Bool
  | Event.memSet l _ => l == KB_DATA_POS
  | _ => false

def isKbStatusSet : Event → Bool
  | Event.memSet l _ => l == KB_STATUS_POS
  | _ => false

/-- Following the claim's words (not the source): in the access sequence
of a keyboard-status read with a key available, the write of the pending
character into the keyboard-data address comes before the write of
1 <<< 15 into the keyboard-status address. -/
def dataWriteBeforeStatusWrite (l : List Event) : Prop :=
  l.findIdx isKbDataSet < l.findIdx isKbStatusSet

/-- A VM with one passive plugin, a key pending and the character q
queued. -/
def vmC1 : VMState :=
  { memory := fun _ => 0
    registers := fun _ => 0
    running := false
    io := { keydowns := [true], inputs := ['q'], outputs := [] }
    plugins := some [fun _ => []]
    log := []
    obs := [] }

/-- C1, counterexample: reading the keyboard-status address with a key
pending delivers the status write (to 0xFE00) strictly before the data
write (to 0xFE02) — the event trace is poll, status write, character
fetch, data write, status fetch — so the claimed order (data write before
status write) is false on this input. -/
theorem C1_counterexample :
    (mem_read 1 KB_STATUS_POS vmC1).2.log =
      [Event.keyDownGet true, Event.memSet KB_STATUS_POS 32768, Event.charGet 'q',
        Event.memSet KB_DATA_POS 113, Event.memGet KB_STATUS_POS 32768] ∧
    ¬ dataWriteBeforeStatusWrite (mem_read 1 KB_STATUS_POS vmC1).2.log := by
  have hpassive : passive [fun _ => ([] : List PAction)] := by
    intro p hpmem e
    simp only [List.mem_singleton] at hpmem
    subst hpmem
    rfl
  have hkey := mem_read_passive_key 0 vmC1 [fun _ => []] [] 'q' [] rfl hpassive rfl rfl
  rw [hkey]
  constructor
  · simp [vmC1]
  · simp only [vmC1, dataWriteBeforeStatusWrite]
    decide

/-- C1, amended: for every VM with passive plugins installed, a mem_read
of the keyboard-status address (0xFE00) first polls the I/O capability
for key availability; when a key is available it then, in this exact
order, writes 1 <<< 15 into the keyboard-status address, fetches the
pending character, writes it into the keyboard-data address (0xFE02) and
returns the status value 1 <<< 15, so that the pending character is
available at the keyboard-data address on the next read; when no key is
available it writes 0 into the keyboard-status address and the read
returns 0.  The delivered event trace exhibits the order. -/
theorem C1_keyboard_status_read (nf : Nat) (s : VMState) (ps : List Plugin)
    (kd : List Bool) (c : Char) (inp : List Char)
    (h : s.plugins = some ps) (hp : passive ps) :
    (s.io.keydowns = true :: kd → s.io.inputs = c :: inp →
      mem_read (nf + 1) KB_STATUS_POS s =
        (Except.ok 32768,
          { s with
              memory := fun a =>
                if a = KB_DATA_POS then c.toNat % 65536
                else if a = KB_STATUS_POS then 32768 else s.memory a
              io := { s.io with keydowns := kd, inputs := inp }
              log := s.log ++
                [Event.keyDownGet true, Event.memSet KB_STATUS_POS 32768, Event.charGet c,
                  Event.memSet KB_DATA_POS (c.toNat % 65536),
                  Event.memGet KB_STATUS_POS 32768] }) ∧
      (mem_read (nf + 1) KB_DATA_POS
          (mem_read (nf + 1) KB_STATUS_POS s).2).1 =
        Except.ok (c.toNat % 65536)) ∧
    (s.io.keydowns = false :: kd →
      mem_read (nf + 1) KB_STATUS_POS s =
        (Except.ok 0,
          { s with
              memory := fun a => if a = KB_STATUS_POS then 0 else s.memory a
              io := { s.io with keydowns := kd }
              log := s.log ++
                [Event.keyDownGet false, Event.memSet KB_STATUS_POS 0,
                  Event.memGet KB_STATUS_POS 0] })) := by
  constructor
  · intro hk hi
    have hkey := mem_read_passive_key nf s ps kd c inp h hp hk hi
    refine ⟨hkey, ?_⟩
    rw [hkey]
    have hplain : ({ s with
        memory := fun a =>
          if a = KB_DATA_POS then c.toNat % 65536
          else if a = KB_STATUS_POS then 32768 else s.memory a
        io := { s.io with keydowns := kd, inputs := inp }
        log := s.log ++
          [Event.keyDownGet true, Event.memSet KB_STATUS_POS 32768, Event.charGet c,
            Event.memSet KB_DATA_POS (c.toNat % 65536),
            Event.memGet KB_STATUS_POS 32768] } : VMState).plugins = some ps := h
    rw [mem_read_passive_plain nf KB_DATA_POS _ ps hplain hp
      (by simp [KB_DATA_POS, KB_STATUS_POS])]
    simp
  · intro hk
    exact mem_read_passive_nokey nf s ps kd h hp hk

/-- C1, witness: on the concrete VM the status read returns 1 <<< 15,
stores the character q (code 113) at the keyboard-data address, and the
next read of the data address returns it. -/
theorem C1_keyboard_status_read_witness :
    (mem_read 1 KB_STATUS_POS vmC1).1 = Except.ok 32768 ∧
    (mem_read 1 KB_STATUS_POS vmC1).2.memory KB_DATA_POS = 113 ∧
    (mem_read 1 KB_DATA_POS (mem_read 1 KB_STATUS_POS vmC1).2).1 = Except.ok 113 := by
  have hpassive : passive [fun _ => ([] : List PAction)] := by
    intro p hpmem e
    simp only [List.mem_singleton] at hpmem
    subst hpmem
    rfl
  have hmain := (C1_keyboard_status_read 0 vmC1 [fun _ => []] [] 'q' [] rfl hpassive).1
    rfl rfl
  refine ⟨?_, ?_, ?_⟩
  · rw [hmain.1]
  · rw [hmain.1]
    decide
  · rw [hmain.2]
    rfl

/-! ### Claim C2 -/

/-- C2: no event is generated while a notification round is in progress.
Delivering one event e with the registry attached extends the
delivered-event log by exactly [e] whatever accesses the plugins perform
(their nested accesses are applied but re-notify nothing), and the
registry is reattached when the round completes; in particular a plugin
that writes register i on receiving e leaves exactly the one event e in
the log while its write is applied to the state. -/
theorem C2_no_reentrant_notification (nf : Nat) (e : Event) (s s1 : VMState)
    (ps : List Plugin) (h : s.plugins = some ps)
    (hr : notify_plugins (nf + 1) e s = (Except.ok (), s1)) :
    (s1.plugins = some ps ∧ s1.log = s.log ++ [e]) ∧
    (∀ (g : Plugin) (i v : Nat), g e = [PAction.regWrite i v] →
      notify_plugins (nf + 1) e { s with plugins := some [g] } =
        (Except.ok (),
          { s with
              registers := fun r => if r = i then v else s.registers r
              plugins := some [g]
              log := s.log ++ [e] })) := by
  refine ⟨notify_plugins_some_ok nf e s s1 ps h hr, ?_⟩
  intro g i v hg
  simp [notify_plugins, runPluginsO, runActionsO, runActionO, hg, M.bind, M.ok,
    reg_index_writeO, notify_plugins_none, pushLog, setReg]

/-- A plugin that reacts to every event by writing 7 into register 0. -/
def pluginWrite7 : Plugin := fun _ => [PAction.regWrite 0 7]

/-- A VM whose only plugin is pluginWrite7. -/
def vmC2 : VMState :=
  { memory := fun _ => 0
    registers := fun _ => 0
    running := false
    io := { keydowns := [], inputs := [], outputs := [] }
    plugins := some [pluginWrite7]
    log := []
    obs := [] }

/-- C2, witness: delivering one register-set event to vmC2 logs exactly
that event, applies the plugin's nested write of 7 to register 0, and
reattaches the registry. -/
theorem C2_no_reentrant_notification_witness :
    (notify_plugins 1 (Event.regSet 5 1) vmC2).2.log = [Event.regSet 5 1] ∧
    (notify_plugins 1 (Event.regSet 5 1) vmC2).2.plugins = some [pluginWrite7] ∧
    (notify_plugins 1 (Event.regSet 5 1) vmC2).2.registers 0 = 7 := by
  have hmain := C2_no_reentrant_notification 0 (Event.regSet 5 1) vmC2
    (notify_plugins 1 (Event.regSet 5 1) vmC2).2 [pluginWrite7] rfl rfl
  have h2 := hmain.2 pluginWrite7 0 7 rfl
  have hsame : ({ vmC2 with plugins := some [pluginWrite7] } : VMState) = vmC2 := by
    simp [vmC2]
  rw [hsame] at h2
  rw [h2]
  simp [vmC2]

/-! ### Claim C9 -/

/-- C9: add_plugin on a VM whose registry is detached (a notification
round is in progress) silently does nothing and returns normally, and a
plugin added from inside a round by another plugin is discarded when the
round completes (the original registry is reattached); outside a round
add_plugin appends the plugin at the end of the registration order. -/
theorem C9_add_plugin_round (nf : Nat) (p q : Plugin) (e : Event) (s : VMState)
    (ps : List Plugin) :
    (s.plugins = none → add_plugin p s = (Except.ok (), s)) ∧
    (∀ g : Plugin, g e = [PAction.addPlugin q] → s.plugins = some [g] →
      notify_plugins (nf + 1) e s = (Except.ok (), pushLog s e)) ∧
    (s.plugins = some ps →
      add_plugin p s = (Except.ok (), { s with plugins := some (ps ++ [p]) })) := by
  refine ⟨?_, ?_, ?_⟩
  · intro h
    rcases s with ⟨mem, regs, run, io, plg, log, obs⟩
    simp only at h
    subst h
    simp [add_plugin]
  · intro g hg h
    rcases s with ⟨mem, regs, run, io, plg, log, obs⟩
    simp only at h
    subst h
    simp [notify_plugins, runPluginsO, runActionsO, runActionO, hg, M.bind, M.ok,
      add_plugin, pushLog]
  · intro h
    simp [add_plugin, h]

/-- A plugin that reacts to every event by trying to register
pluginWrite7 as a further plugin. -/
def pluginAdder : Plugin := fun _ => [PAction.addPlugin pluginWrite7]

/-- A VM whose only plugin is pluginAdder, and a detached variant. -/
def vmC9 : VMState :=
  { memory := fun _ => 0
    registers := fun _ => 0
    running := false
    io := { keydowns := [], inputs := [], outputs := [] }
    plugins := some [pluginAdder]
    log := []
    obs := [] }

def vmC9detached : VMState := { vmC9 with plugins := none }

/-- C9, witness: add_plugin during a round is a silent no-op, a plugin
added from inside a round is gone once the round completes, and outside a
round add_plugin appends at the end. -/
theorem C9_add_plugin_round_witness :
    add_plugin pluginWrite7 vmC9detached = (Except.ok (), vmC9detached) ∧
    (notify_plugins 1 (Event.runningGet true) vmC9).2.plugins = some [pluginAdder] ∧
    add_plugin pluginWrite7 vmC9 =
      (Except.ok (), { vmC9 with plugins := some [pluginAdder, pluginWrite7] }) := by
  have hm1 := C9_add_plugin_round 0 pluginWrite7 pluginWrite7 (Event.runningGet true)
    vmC9detached [pluginAdder]
  have hm2 := C9_add_plugin_round 0 pluginWrite7 pluginWrite7 (Event.runningGet true)
    vmC9 [pluginAdder]
  refine ⟨hm1.1 rfl, ?_, ?_⟩
  · rw [hm2.2.1 pluginAdder rfl rfl]
    rfl
  · rw [hm2.2.2 rfl]
    simp

/-! ### Claim C3 -/

/-- C3: outside a notification round every write accessor emits exactly
one event carrying the value about to be written and applies the
mutation only afterwards — a plugin reading the target during the round
observes the old value — and every read accessor (mem_read of a
non-keyboard-status address, register read, running read) emits exactly
one event carrying the value it just fetched.  The exact-result
equalities exhibit the single logged event and the mutation order; the
obs clauses exhibit the old value seen by an in-round reader plugin. -/
theorem C3_accessor_event_discipline (nf pos val i v : Nat) (b : Bool) (s : VMState)
    (ps : List Plugin) (h : s.plugins = some ps) (hp : passive ps) :
    mem_write (nf + 1) pos val s =
      (Except.ok (), setMem (pushLog s (Event.memSet pos val)) pos val) ∧
    reg_index_write (nf + 1) i v s =
      (Except.ok (), setReg (pushLog s (Event.regSet i v)) i v) ∧
    set_running (nf + 1) b s =
      (Except.ok (), { pushLog s (Event.runningSet b) with running := b }) ∧
    (pos ≠ KB_STATUS_POS →
      mem_read (nf + 1) pos s =
        (Except.ok (s.memory pos), pushLog s (Event.memGet pos (s.memory pos)))) ∧
    reg_index_read (nf + 1) i s =
      (Except.ok (s.registers i), pushLog s (Event.regGet i (s.registers i))) ∧
    get_running (nf + 1) s =
      (Except.ok s.running, pushLog s (Event.runningGet s.running)) ∧
    (∀ g : Plugin, g (Event.memSet pos val) = [PAction.memRead pos] →
      pos ≠ KB_STATUS_POS →
      (mem_write (nf + 1) pos val { s with plugins := some [g] }).2.obs =
        s.obs ++ [s.memory pos]) ∧
    (∀ g : Plugin, g (Event.regSet i v) = [PAction.regRead i] →
      (reg_index_write (nf + 1) i v { s with plugins := some [g] }).2.obs =
        s.obs ++ [s.registers i]) ∧
    (∀ g : Plugin, g (Event.runningSet b) = [PAction.getRunning] →
      (set_running (nf + 1) b { s with plugins := some [g] }).2.obs =
        s.obs ++ [if s.running then 1 else 0]) := by
  refine ⟨mem_write_passive nf pos val s ps h hp,
    reg_index_write_passive nf i v s ps h hp,
    set_running_passive nf b s ps h hp,
    fun hpos => mem_read_passive_plain nf pos s ps h hp hpos,
    reg_index_read_passive nf i s ps h hp,
    get_running_passive nf s ps h hp, ?_, ?_, ?_⟩
  · intro g hg hpos
    simp [mem_write, mem_writeO, notify_plugins, runPluginsO, runActionsO, runActionO, hg,
      mem_readO, hpos, notify_plugins_none, M.bind, M.ok, pushObs, pushLog, setMem]
  · intro g hg
    simp [reg_index_write, reg_index_writeO, notify_plugins, runPluginsO, runActionsO,
      runActionO, hg, reg_index_readO, notify_plugins_none, M.bind, M.ok, pushObs,
      pushLog, setReg]
  · intro g hg
    simp [set_running, set_runningO, notify_plugins, runPluginsO, runActionsO,
      runActionO, hg, get_runningO, notify_plugins_none, M.bind, M.ok, pushObs, pushLog]

/-- A VM with one passive plugin, register 2 holding 5 and address 40
holding 6. -/
def vmC3 : VMState :=
  { memory := fun a => if a = 40 then 6 else 0
    registers := fun r => if r = 2 then 5 else 0
    running := false
    io := { keydowns := [], inputs := [], outputs := [] }
    plugins := some [fun _ => []]
    log := []
    obs := [] }

/-- A plugin that reacts to every event by reading memory address 40. -/
def pluginReads40 : Plugin := fun _ => [PAction.memRead 40]

/-- C3, witness: on vmC3 a memory write to address 40 logs exactly its
memSet event and then applies the write, and with a reader plugin
installed instead, the plugin observes the old value 6 during the round
of a write of 9 to address 40. -/
theorem C3_accessor_event_discipline_witness :
    (mem_write 1 40 9 vmC3).2.memory 40 = 9 ∧
    (mem_write 1 40 9 vmC3).2.log = [Event.memSet 40 9] ∧
    (mem_write 1 40 9 { vmC3 with plugins := some [pluginReads40] }).2.obs = [6] := by
  have hpassive : passive [fun _ => ([] : List PAction)] := by
    intro p hpmem e
    simp only [List.mem_singleton] at hpmem
    subst hpmem
    rfl
  have hmain := C3_accessor_event_discipline 0 40 9 2 3 false vmC3
    [fun _ => []] rfl hpassive
  refine ⟨?_, ?_, ?_⟩
  · rw [hmain.1]
    simp [setMem, pushLog]
  · rw [hmain.1]
    simp [setMem, pushLog, vmC3]
  · have hobs := hmain.2.2.2.2.2.2.1 pluginReads40 rfl (by simp [KB_STATUS_POS])
    rw [hobs]
    simp [vmC3]

/-! ### Claim C4 -/

/-- C4: run first sets running to true and then the PC register to
0x3000 (each change logged before the loop starts); while the running
flag reads true, an iteration reads the PC, writes back PC + 1, and only
then fetches the word at the pre-increment PC, decodes it via
Command.new and dispatches it through run_command — so the PC the
handler sees is already incremented — and the running flag is consulted
again only by the next iteration after the command completes; when the
flag reads false the loop returns Ok immediately. -/
theorem C4_fetch_execute_loop (nf lf : Nat) (s : VMState) (ps : List Plugin)
    (h : s.plugins = some ps) (hp : passive ps) :
    run (nf + 1) lf s =
      runLoop (nf + 1) lf
        { s with
            running := true
            registers := fun r => if r = RPC then PC_START else s.registers r
            log := s.log ++ [Event.runningSet true, Event.regSet RPC PC_START] } ∧
    (s.running = true →
      runLoop (nf + 1) (lf + 1) s =
        M.bind (mem_read (nf + 1) (s.registers RPC)) (fun w =>
          M.bind (run_command (nf + 1) (Command.new w)) (fun _ => runLoop (nf + 1) lf))
          { s with
              registers := fun r =>
                if r = RPC then (s.registers RPC + 1) % 65536 else s.registers r
              log := s.log ++
                [Event.runningGet true, Event.regGet RPC (s.registers RPC),
                  Event.regSet RPC ((s.registers RPC + 1) % 65536)] }) ∧
    (s.running = false →
      runLoop (nf + 1) (lf + 1) s = (Except.ok (), pushLog s (Event.runningGet false))) := by
  refine ⟨?_, ?_, ?_⟩
  · rw [run]
    rw [M.bind_ok _ _ s ({ pushLog s (Event.runningSet true) with running := true }) ()
      (set_running_passive nf true s ps h hp)]
    have hA : ({ pushLog s (Event.runningSet true) with running := true } : VMState).plugins =
        some ps := by simp [pushLog, h]
    have h2 : reg_write (nf + 1) RPC PC_START
        { pushLog s (Event.runningSet true) with running := true } =
        (Except.ok (),
          setReg (pushLog { pushLog s (Event.runningSet true) with running := true }
            (Event.regSet RPC PC_START)) RPC PC_START) :=
      reg_index_write_passive nf RPC PC_START _ ps hA hp
    rw [M.bind_ok _ _ _ _ () h2]
    have heq : setReg (pushLog { pushLog s (Event.runningSet true) with running := true }
        (Event.regSet RPC PC_START)) RPC PC_START =
        { s with
            running := true
            registers := fun r => if r = RPC then PC_START else s.registers r
            log := s.log ++ [Event.runningSet true, Event.regSet RPC PC_START] } := by
      simp [setReg, pushLog]
    rw [heq]
  · intro hr
    rw [runLoop]
    rw [M.bind_ok _ _ s (pushLog s (Event.runningGet s.running)) s.running
      (get_running_passive nf s ps h hp)]
    rw [hr]
    rw [if_pos rfl]
    have hA : (pushLog s (Event.runningGet true)).plugins = some ps := by
      simp [pushLog, h]
    have h2 : reg_read (nf + 1) RPC (pushLog s (Event.runningGet true)) =
        (Except.ok ((pushLog s (Event.runningGet true)).registers RPC),
          pushLog (pushLog s (Event.runningGet true))
            (Event.regGet RPC ((pushLog s (Event.runningGet true)).registers RPC))) :=
      reg_index_read_passive nf RPC _ ps hA hp
    rw [M.bind_ok _ _ _ _ _ h2]
    have hB : (pushLog (pushLog s (Event.runningGet true))
        (Event.regGet RPC ((pushLog s (Event.runningGet true)).registers RPC))).plugins =
        some ps := by simp [pushLog, h]
    have h3 : reg_write (nf + 1) RPC
        (((pushLog s (Event.runningGet true)).registers RPC + 1) % 65536)
        (pushLog (pushLog s (Event.runningGet true))
          (Event.regGet RPC ((pushLog s (Event.runningGet true)).registers RPC))) =
        (Except.ok (),
          setReg
            (pushLog
              (pushLog (pushLog s (Event.runningGet true))
                (Event.regGet RPC ((pushLog s (Event.runningGet true)).registers RPC)))
              (Event.regSet RPC
                (((pushLog s (Event.runningGet true)).registers RPC + 1) % 65536)))
            RPC (((pushLog s (Event.runningGet true)).registers RPC + 1) % 65536)) :=
      reg_index_write_passive nf RPC _ _ ps hB hp
    rw [M.bind_ok _ _ _ _ () h3]
    have heq : setReg
        (pushLog
          (pushLog (pushLog s (Event.runningGet true))
            (Event.regGet RPC ((pushLog s (Event.runningGet true)).registers RPC)))
          (Event.regSet RPC
            (((pushLog s (Event.runningGet true)).registers RPC + 1) % 65536)))
        RPC (((pushLog s (Event.runningGet true)).registers RPC + 1) % 65536) =
        { s with
            registers := fun r =>
              if r = RPC then (s.registers RPC + 1) % 65536 else s.registers r
            log := s.log ++
              [Event.runningGet true, Event.regGet RPC (s.registers RPC),
                Event.regSet RPC ((s.registers RPC + 1) % 65536)] } := by
      simp [setReg, pushLog]
    have hpc : (pushLog s (Event.runningGet true)).registers RPC = s.registers RPC := by
      simp [pushLog]
    rw [hpc] at heq
    rw [hpc]
    rw [heq]
    rw [hr]
  · intro hr
    rw [runLoop]
    rw [M.bind_ok _ _ s (pushLog s (Event.runningGet s.running)) s.running
      (get_running_passive nf s ps h hp)]
    rw [hr]
    rw [if_neg Bool.false_ne_true]
    rfl

/-- A stopped VM with one passive plugin. -/
def vmC4 : VMState :=
  { memory := fun _ => 0
    registers := fun _ => 0
    running := false
    io := { keydowns := [], inputs := [], outputs := [] }
    plugins := some [fun _ => []]
    log := []
    obs := [] }

/-- C4, witness: on the stopped vmC4 one loop iteration consults the
running flag once, logs that read and returns Ok without fetching
anything. -/
theorem C4_fetch_execute_loop_witness :
    (runLoop 1 1 vmC4).1 = Except.ok () ∧
    (runLoop 1 1 vmC4).2.log = [Event.runningGet false] := by
  have hpassive : passive [fun _ => ([] : List PAction)] := by
    intro p hpmem e
    simp only [List.mem_singleton] at hpmem
    subst hpmem
    rfl
  have hmain := (C4_fetch_execute_loop 0 0 vmC4 [fun _ => []] rfl hpassive).2.2 rfl
  rw [hmain]
  simp [pushLog, vmC4]

/-! ### Claim C10 -/

/-- C10: immediately after construction via new_with_io (and new) the VM
is not running, every memory word is 0 and every register — including
the PC and the condition-flags register — is 0; in particular the
condition-flags register equals none of NEGATIVE, ZERO, POSITIVE. -/
theorem C10_fresh_vm_state (io : IOState) :
    (new_with_io io).running = false ∧
    (∀ a, (new_with_io io).memory a = 0) ∧
    (∀ r, (new_with_io io).registers r = 0) ∧
    (new_with_io io).registers RPC = 0 ∧
    (new_with_io io).registers RCond = 0 ∧
    (new_with_io io).registers RCond ≠ FL_NEG ∧
    (new_with_io io).registers RCond ≠ FL_ZRO ∧
    (new_with_io io).registers RCond ≠ FL_POS ∧
    new.running = false := by
  refine ⟨rfl, fun a => rfl, fun r => rfl, rfl, rfl, ?_, ?_, ?_, rfl⟩
  · simp [new_with_io, FL_NEG]
  · simp [new_with_io, FL_ZRO]
  · simp [new_with_io, FL_POS]

/-! ### Claim C6 -/

/-- C6: a program longer than MEMORY_SIZE - PC_START words is rejected
with the ProgramTooLarge error before any state is touched: the state
returned alongside the error is the input state itself, so every memory
word, every register and the running flag are unchanged. -/
theorem C6_load_program_too_large (nf : Nat) (program : List Nat) (s : VMState)
    (h : program.length > MEMORY_SIZE - PC_START) :
    load_program nf program s =
      (Except.error (LC3Error.programSize program.length (MEMORY_SIZE - PC_START)), s) := by
  simp [load_program, h]

/-- A plain zeroed VM with an empty attached registry. -/
def vmC6 : VMState :=
  { memory := fun _ => 0
    registers := fun _ => 0
    running := false
    io := { keydowns := [], inputs := [], outputs := [] }
    plugins := some []
    log := []
    obs := [] }

/-- C6, witness: a 53249-word program does not fit and the load returns
the ProgramTooLarge error with the state untouched. -/
theorem C6_load_program_too_large_witness :
    (List.replicate 53249 (0 : Nat)).length > MEMORY_SIZE - PC_START ∧
    load_program 1 (List.replicate 53249 0) vmC6 =
      (Except.error (LC3Error.programSize 53249 53248), vmC6) := by
  have hlen : (List.replicate 53249 (0 : Nat)).length > MEMORY_SIZE - PC_START := by
    rw [List.length_replicate]
    norm_num [MEMORY_SIZE, PC_START]
  refine ⟨hlen, ?_⟩
  rw [C6_load_program_too_large 1 (List.replicate 53249 0) vmC6 hlen]
  rw [List.length_replicate]
  norm_num [MEMORY_SIZE, PC_START]

/-! ### Claim C5 -/

theorem shiftRight15_eq_one_iff (v : Nat) (hv : v < 65536) :
    v >>> 15 = 1 ↔ Nat.testBit v 15 = true := by
  rw [Nat.testBit_to_div_mod, Nat.shiftRight_eq_div_pow]
  simp only [decide_eq_true_eq]
  norm_num
  omega

/-- C5: update_flags on register r with a 16-bit value v writes into the
condition-flags register exactly one of ZERO, NEGATIVE, POSITIVE —
ZERO when v = 0, NEGATIVE when bit 15 of v is set, POSITIVE otherwise —
leaves every other register unchanged, and succeeds. -/
theorem C5_update_flags (nf r : Nat) (s : VMState) (ps : List Plugin)
    (h : s.plugins = some ps) (hp : passive ps) (hv : s.registers r < 65536) :
    (update_flags (nf + 1) r s).1 = Except.ok () ∧
    (s.registers r = 0 → (update_flags (nf + 1) r s).2.registers RCond = FL_ZRO) ∧
    (Nat.testBit (s.registers r) 15 = true →
      (update_flags (nf + 1) r s).2.registers RCond = FL_NEG) ∧
    (s.registers r ≠ 0 → Nat.testBit (s.registers r) 15 = false →
      (update_flags (nf + 1) r s).2.registers RCond = FL_POS) ∧
    ((update_flags (nf + 1) r s).2.registers RCond = FL_ZRO ∨
      (update_flags (nf + 1) r s).2.registers RCond = FL_NEG ∨
      (update_flags (nf + 1) r s).2.registers RCond = FL_POS) ∧
    (∀ j, j ≠ RCond → (update_flags (nf + 1) r s).2.registers j = s.registers j) := by
  have hmain : update_flags (nf + 1) r s =
      (Except.ok (),
        setReg
          (pushLog (pushLog s (Event.regGet r (s.registers r)))
            (Event.regSet RCond
              (if s.registers r = 0 then FL_ZRO
               else if s.registers r >>> 15 = 1 then FL_NEG else FL_POS)))
          RCond
          (if s.registers r = 0 then FL_ZRO
           else if s.registers r >>> 15 = 1 then FL_NEG else FL_POS)) := by
    rw [update_flags]
    rw [M.bind_ok _ _ s (pushLog s (Event.regGet r (s.registers r))) (s.registers r)
      (reg_index_read_passive nf r s ps h hp)]
    exact reg_index_write_passive nf RCond _ _ ps (by simp [pushLog, h]) hp
  rw [hmain]
  refine ⟨rfl, ?_, ?_, ?_, ?_, ?_⟩
  · intro h0
    simp [setReg, h0]
  · intro hbit
    have hne : s.registers r ≠ 0 := by
      intro h0
      rw [h0] at hbit
      simp at hbit
    have hshift : s.registers r >>> 15 = 1 := (shiftRight15_eq_one_iff _ hv).2 hbit
    simp [setReg, hne, hshift]
  · intro hne hbit
    have hshift : s.registers r >>> 15 ≠ 1 := by
      intro h1
      rw [(shiftRight15_eq_one_iff _ hv).1 h1] at hbit
      simp at hbit
    simp [setReg, hne, hshift]
  · by_cases h0 : s.registers r = 0
    · left
      simp [setReg, h0]
    · by_cases h15 : s.registers r >>> 15 = 1
      · right
        left
        simp [setReg, h0, h15]
      · right
        right
        simp [setReg, h0, h15]
  · intro j hj
    simp [setReg, pushLog, hj]

/-- A VM with one passive plugin and register 3 holding 0x8111. -/
def vmC5 : VMState :=
  { memory := fun _ => 0
    registers := fun r => if r = 3 then 0x8111 else 0
    running := false
    io := { keydowns := [], inputs := [], outputs := [] }
    plugins := some [fun _ => []]
    log := []
    obs := [] }

/-- C5, witness: updating flags from register 3 of vmC5 (value 0x8111,
bit 15 set) sets the NEGATIVE flag and leaves register 3 alone. -/
theorem C5_update_flags_witness :
    (update_flags 1 3 vmC5).1 = Except.ok () ∧
    (update_flags 1 3 vmC5).2.registers RCond = FL_NEG ∧
    (update_flags 1 3 vmC5).2.registers 3 = 0x8111 := by
  have hpassive : passive [fun _ => ([] : List PAction)] := by
    intro p hpmem e
    simp only [List.mem_singleton] at hpmem
    subst hpmem
    rfl
  have hmain := C5_update_flags 0 3 vmC5 [fun _ => []] rfl hpassive (by decide)
  refine ⟨hmain.1, hmain.2.2.1 (by decide), ?_⟩
  have := hmain.2.2.2.2.2 3 (by simp [RCond])
  rw [this]
  decide

/-! ### Claim C7 -/

theorem loadLoop_passive (nf : Nat) (prog : List Nat) (idx : Nat) (s : VMState)
    (ps : List Plugin) (h : s.plugins = some ps) (hp : passive ps)
    (hbound : idx + prog.length ≤ MEMORY_SIZE - PC_START) :
    ∃ s1, loadLoop (nf + 1) prog idx s = (Except.ok (), s1) ∧
      (∀ k, k < prog.length → s1.memory (PC_START + idx + k) = prog.getD k 0) ∧
      (∀ a, a < PC_START + idx ∨ PC_START + idx + prog.length ≤ a →
        s1.memory a = s.memory a) ∧
      s1.registers = s.registers ∧ s1.running = s.running ∧ s1.plugins = s.plugins := by
  induction prog generalizing idx s with
  | nil =>
      refine ⟨s, rfl, ?_, ?_, rfl, rfl, rfl⟩
      · intro k hk
        simp at hk
      · intro a _
        rfl
  | cons w rest ih =>
      have hidx : idx < MEMORY_SIZE - PC_START := by
        simp only [List.length_cons] at hbound
        omega
      have haddr : (PC_START + idx % 65536) % 65536 = PC_START + idx := by
        simp only [PC_START, MEMORY_SIZE] at hidx ⊢
        omega
      have hw := mem_write_passive nf ((PC_START + idx % 65536) % 65536) w s ps h hp
      rw [haddr] at hw
      have h2 : (setMem (pushLog s (Event.memSet (PC_START + idx) w)) (PC_START + idx)
          w).plugins = some ps := by
        simp [setMem, pushLog, h]
      have hb2 : (idx + 1) + rest.length ≤ MEMORY_SIZE - PC_START := by
        simp only [List.length_cons] at hbound
        omega
      obtain ⟨s1, heq, hmem, hframe, hregs, hrun, hplug⟩ :=
        ih (idx + 1) (setMem (pushLog s (Event.memSet (PC_START + idx) w)) (PC_START + idx) w)
          h2 hb2
      refine ⟨s1, ?_, ?_, ?_, ?_, ?_, ?_⟩
      · rw [loadLoop, haddr, M.bind_ok _ _ s _ () hw]
        exact heq
      · intro k hk
        cases k with
        | zero =>
            have hlt : PC_START + idx + 0 < PC_START + (idx + 1) := by omega
            rw [hframe (PC_START + idx + 0) (Or.inl hlt)]
            simp [setMem, pushLog]
        | succ j =>
            simp only [List.length_cons] at hk
            have hj : j < rest.length := by omega
            have := hmem j hj
            have harr : PC_START + (idx + 1) + j = PC_START + idx + (j + 1) := by omega
            rw [harr] at this
            rw [this]
            simp [List.getD]
      · intro a ha
        have ha2 : a < PC_START + (idx + 1) ∨ PC_START + (idx + 1) + rest.length ≤ a := by
          simp only [List.length_cons] at ha
          omega
        rw [hframe a ha2]
        have hne : a ≠ PC_START + idx := by
          simp only [List.length_cons] at ha
          omega
        simp [setMem, pushLog, hne]
      · rw [hregs]
        simp [setMem, pushLog]
      · rw [hrun]
        simp [setMem, pushLog]
      · rw [hplug]
        simp [setMem, pushLog, h]

/-- C7: a program of length at most MEMORY_SIZE - PC_START loads
successfully (with passive plugins installed): afterwards address
PC_START + i holds word i for every i below the length, every address
outside the written range keeps its old contents, and the registers and
the running flag are untouched. -/
theorem C7_load_program_ok (nf : Nat) (program : List Nat) (s : VMState)
    (ps : List Plugin) (h : s.plugins = some ps) (hp : passive ps)
    (hlen : program.length ≤ MEMORY_SIZE - PC_START) :
    ∃ s1, load_program (nf + 1) program s = (Except.ok (), s1) ∧
      (∀ k, k < program.length → s1.memory (PC_START + k) = program.getD k 0) ∧
      (∀ a, a < PC_START ∨ PC_START + program.length ≤ a → s1.memory a = s.memory a) ∧
      s1.registers = s.registers ∧ s1.running = s.running ∧ s1.plugins = s.plugins := by
  obtain ⟨s1, heq, hmem, hframe, hregs, hrun, hplug⟩ :=
    loadLoop_passive nf program 0 s ps h hp (by omega)
  refine ⟨s1, ?_, ?_, ?_, hregs, hrun, hplug⟩
  · rw [load_program]
    rw [if_neg (by omega)]
    exact heq
  · intro k hk
    have := hmem k hk
    rw [show PC_START + 0 + k = PC_START + k from by omega] at this
    exact this
  · intro a ha
    apply hframe
    omega

/-- A plain zeroed VM with one passive plugin. -/
def vmC7 : VMState :=
  { memory := fun _ => 0
    registers := fun _ => 0
    running := false
    io := { keydowns := [], inputs := [], outputs := [] }
    plugins := some [fun _ => []]
    log := []
    obs := [] }

/-- C7, witness: loading the two-word program [7, 8] into vmC7 succeeds,
places 7 at 0x3000 and 8 at 0x3001, leaves 0x3002 and the registers and
running flag untouched. -/
theorem C7_load_program_ok_witness :
    (load_program 1 [7, 8] vmC7).1 = Except.ok () ∧
    (load_program 1 [7, 8] vmC7).2.memory 0x3000 = 7 ∧
    (load_program 1 [7, 8] vmC7).2.memory 0x3001 = 8 ∧
    (load_program 1 [7, 8] vmC7).2.memory 0x3002 = 0 ∧
    (load_program 1 [7, 8] vmC7).2.registers = vmC7.registers ∧
    (load_program 1 [7, 8] vmC7).2.running = false := by
  have hpassive : passive [fun _ => ([] : List PAction)] := by
    intro p hpmem e
    simp only [List.mem_singleton] at hpmem
    subst hpmem
    rfl
  obtain ⟨s1, heq, hmem, hframe, hregs, hrun, hplug⟩ :=
    C7_load_program_ok 0 [7, 8] vmC7 [fun _ => []] rfl hpassive
      (by norm_num [MEMORY_SIZE, PC_START])
  rw [heq]
  refine ⟨rfl, ?_, ?_, ?_, hregs, hrun⟩
  · have := hmem 0 (by norm_num)
    simpa [PC_START] using this
  · have := hmem 1 (by norm_num)
    simpa [PC_START] using this
  · have := hframe 0x3002 (by right; norm_num [PC_START])
    rw [this]
    rfl

/-! ### Claim C8 -/

/-- C8: the fetch-execute loop short-circuits on the first error: when
the instruction dispatched in an iteration fails with error e (covering
decode, handler, nested accessor and plugin-handler failures alike), run
returns exactly that error immediately — the next iteration is never
entered, no further instruction is fetched, and the state returned is
precisely the state the failing sub-step left behind (no rollback of the
already-applied PC increment or of any other effect); an error from the
running-flag accessor aborts the loop the same way, and a fully
successful iteration continues into the loop on the state the command
left, which propagates an error of any later iteration outward
unchanged. -/
theorem C8_error_short_circuit (nf lf : Nat) (s sa sb s1 s2 s3 s4 s5 : VMState)
    (pc w : Nat) (e : LC3Error)
    (h0 : set_running nf true s = (Except.ok (), sa))
    (h1 : reg_write nf RPC PC_START sa = (Except.ok (), sb))
    (h2 : get_running nf sb = (Except.ok true, s1))
    (h3 : reg_read nf RPC s1 = (Except.ok pc, s2))
    (h4 : reg_write nf RPC ((pc + 1) % 65536) s2 = (Except.ok (), s3))
    (h5 : mem_read nf pc s3 = (Except.ok w, s4))
    (h6 : run_command nf (Command.new w) s4 = (Except.error e, s5)) :
    run nf (lf + 1) s = (Except.error e, s5) ∧
    (∀ t t1 err, get_running nf t = (Except.error err, t1) →
      runLoop nf (lf + 1) t = (Except.error err, t1)) ∧
    (∀ t ta tb t2 t3 t4 pc2 w2,
      get_running nf t = (Except.ok true, ta) →
      reg_read nf RPC ta = (Except.ok pc2, tb) →
      reg_write nf RPC ((pc2 + 1) % 65536) tb = (Except.ok (), t2) →
      mem_read nf pc2 t2 = (Except.ok w2, t3) →
      run_command nf (Command.new w2) t3 = (Except.ok (), t4) →
      runLoop nf (lf + 1) t = runLoop nf lf t4) := by
  refine ⟨?_, ?_, ?_⟩
  · rw [run, M.bind_ok _ _ s sa () h0, M.bind_ok _ _ sa sb () h1, runLoop,
      M.bind_ok _ _ sb s1 true h2, if_pos rfl, M.bind_ok _ _ s1 s2 pc h3,
      M.bind_ok _ _ s2 s3 () h4, M.bind_ok _ _ s3 s4 w h5,
      M.bind_err _ _ s4 s5 e h6]
  · intro t t1 err hg
    rw [runLoop, M.bind_err _ _ t t1 err hg]
  · intro t ta tb t2 t3 t4 pc2 w2 hg hrd hwr hf hc
    rw [runLoop, M.bind_ok _ _ t ta true hg, if_pos rfl, M.bind_ok _ _ ta tb pc2 hrd,
      M.bind_ok _ _ tb t2 () hwr, M.bind_ok _ _ t2 t3 w2 hf,
      M.bind_ok _ _ t3 t4 () hc]

/-- A VM with no plugin registry detachment concerns (no plugins) whose
whole memory is the RTI instruction 0x8000. -/
def vmC8 : VMState :=
  { memory := fun _ => 0x8000
    registers := fun _ => 0
    running := false
    io := { keydowns := [], inputs := [], outputs := [] }
    plugins := some []
    log := []
    obs := [] }

/-- C8, witness: running vmC8 hits the unimplemented RTI opcode in the
first instruction; run returns that error and the already-applied
effects remain — the PC has been incremented past 0x3000 and the
running flag is still true. -/
theorem C8_error_short_circuit_witness :
    (run 1 1 vmC8).1 = Except.error LC3Error.unimplementedOpcode ∧
    (run 1 1 vmC8).2.registers RPC = 0x3001 ∧
    (run 1 1 vmC8).2.running = true := by
  have hrun := C8_error_short_circuit 1 0 vmC8
    (set_running 1 true vmC8).2
    (reg_write 1 RPC PC_START (set_running 1 true vmC8).2).2
    (get_running 1 (reg_write 1 RPC PC_START (set_running 1 true vmC8).2).2).2
    (reg_read 1 RPC
      (get_running 1 (reg_write 1 RPC PC_START (set_running 1 true vmC8).2).2).2).2
    (reg_write 1 RPC 0x3001
      (reg_read 1 RPC
        (get_running 1 (reg_write 1 RPC PC_START (set_running 1 true vmC8).2).2).2).2).2
    (mem_read 1 0x3000
      (reg_write 1 RPC 0x3001
        (reg_read 1 RPC
          (get_running 1 (reg_write 1 RPC PC_START (set_running 1 true vmC8).2).2).2).2).2).2
    (run_command 1 (Command.new 0x8000)
      (mem_read 1 0x3000
        (reg_write 1 RPC 0x3001
          (reg_read 1 RPC
            (get_running 1 (reg_write 1 RPC PC_START (set_running 1 true vmC8).2).2).2).2).2).2).2
    0x3000 0x8000 LC3Error.unimplementedOpcode
    rfl rfl rfl rfl rfl rfl rfl
  rw [hrun.1]
  refine ⟨rfl, ?_, ?_⟩
  · decide
  · decide
